import Mathlib

/-!
Shallow embedding of the ADDI-DATA 8250 PCI serial probe module
(`addi_serial.c`) and proofs about its quirk dispatch, per-port address
resolution, board heuristic and attach/suspend/resume/fault lifecycle.

Machine integers are modelled as `Nat`/`Int`; where the C code computes in
`unsigned int` (32 bits) or `resource_size_t` (64 bits) and overflow or
truncation can matter, the reduction `% 2^32` / `% 2^64` is written
explicitly.
-/

/-- Bit width moduli for C unsigned arithmetic. -/
def U32 : Nat := 2 ^ 32

def U64 : Nat := 2 ^ 64

/-! Constants from the Linux headers used by the source
(`linux/8250_pci.h`, `linux/pci_ids.h`, `uapi/linux/pci.h`,
`asm-generic/errno-base.h`). -/

def PCI_ANY_ID : Nat := 0xffffffff

def PCI_NUM_BAR_RESOURCES : Nat := 6

def FL_BASE_MASK : Nat := 0x0007

def FL_BASE0 : Nat := 0x0000

def FL_BASE1 : Nat := 0x0001

def FL_BASE_BARS : Nat := 0x0008

def FL_NOIRQ : Nat := 0x0080

def FL_REGION_SZ_CAP : Nat := 0x0100

/-- `FL_GET_BASE(x)`: low three bits of the board flags give the base BAR. -/
def FL_GET_BASE (flags : Nat) : Nat := flags &&& FL_BASE_MASK

def EINVAL : Int := 22

def ENOMEM : Int := 12

def ENODEV : Int := 19

def PCI_CLASS_COMMUNICATION_SERIAL : Nat := 0x0700

def PCI_CLASS_COMMUNICATION_MULTISERIAL : Nat := 0x0702

def PCI_CLASS_COMMUNICATION_MODEM : Nat := 0x0703

def PCI_VENDOR_ID_AMCC : Nat := 0x10e8

def PCI_DEVICE_ID_AMCC_ADDIDATA_APCI7800 : Nat := 0x818e

/-- One PCI BAR resource: the `IORESOURCE_MEM` / `IORESOURCE_IO` flag bits
and the start address and length reported by the bus. -/
structure PciResource where
  memRegion : Bool
  portRegion : Bool
  start : Nat
  len : Nat
deriving DecidableEq

/-- The slice of `struct pci_dev` the source reads: identity, class code,
interrupt line, the six BAR resources (modelled as a total function; only
indices `0..5` are meaningful), and the state of the managed iomap
facility (`pcim_iomap` success per BAR, `pcim_iomap_table` either the
table of mapped base addresses or NULL). -/
structure PciDev where
  vendor : Nat
  device : Nat
  subsystem_vendor : Nat
  subsystem_device : Nat
  devClass : Nat
  irq : Nat
  resources : Nat → PciResource
  iomapOk : Nat → Bool
  iomapTable : Option (Nat → Nat)

def pci_resource_len (dev : PciDev) (bar : Nat) : Nat := (dev.resources bar).len

def pci_resource_start (dev : PciDev) (bar : Nat) : Nat := (dev.resources bar).start

/-- `struct pciserial_board`: layout parameters of one catalog entry.
All fields are C `unsigned int`; the intended range is `< 2^32`. -/
structure PciserialBoard where
  flags : Nat
  num_ports : Nat
  base_baud : Nat
  uart_offset : Nat
  reg_shift : Nat
  first_offset : Nat
deriving DecidableEq

inductive UartAccess where
  | mem
  | port
deriving DecidableEq

/-- The fields of `struct uart_8250_port` written by `setup_port`:
the resolved register window for one UART. -/
structure UartWindow where
  iotype : UartAccess
  iobase : Nat
  mapbase : Nat
  membase : Option Nat
  regshift : Nat
deriving DecidableEq

/-- Result of a `setup` hook: `ok` is the C return value 0 together with
the window written into the port structure, `notPresent` is the return
value 1 used by `pci_default_setup` for capacity-capped boards, and
`err e` is a negative return `-e`. -/
inductive SetupResult where
  | ok (w : UartWindow)
  | notPresent
  | err (e : Int)
deriving DecidableEq

def SetupResult.isOk : SetupResult → Bool
  | SetupResult.ok _ => true
  | _ => false

/-- `setup_port`: validate the BAR index, then resolve the window.  A
memory-backed BAR is iomapped (failing with `-ENOMEM` only when both the
map attempt and the map table are unavailable, exactly as the C condition
reads); an I/O-backed BAR resolves to port I/O with shift 0. -/
def setup_port (dev : PciDev) (bar offset regshift : Nat) : SetupResult :=
  if bar ≥ PCI_NUM_BAR_RESOURCES then SetupResult.err (-EINVAL)
  else if (dev.resources bar).memRegion then
    if !dev.iomapOk bar && dev.iomapTable.isNone then SetupResult.err (-ENOMEM)
    else
      SetupResult.ok
        { iotype := UartAccess.mem
          iobase := 0
          mapbase := pci_resource_start dev bar + offset
          membase := dev.iomapTable.map (fun t => t bar + offset)
          regshift := regshift }
  else
    SetupResult.ok
      { iotype := UartAccess.port
        iobase := pci_resource_start dev bar + offset
        mapbase := 0
        membase := none
        regshift := 0 }

/-- `addidata_apci7800_setup`: two ports per BAR across four BARs.  The
offset accumulates in a C `unsigned int`, hence the `% U32`. -/
def addidata_apci7800_setup (dev : PciDev) (board : PciserialBoard) (idx : Nat) :
    SetupResult :=
  let bar := FL_GET_BASE board.flags
  let offset := board.first_offset
  if idx < 2 then
    setup_port dev bar ((offset + idx * board.uart_offset) % U32) board.reg_shift
  else if idx < 4 then
    setup_port dev (bar + 1) ((offset + (idx - 2) * board.uart_offset) % U32) board.reg_shift
  else if idx < 6 then
    setup_port dev (bar + 2) ((offset + (idx - 4) * board.uart_offset) % U32) board.reg_shift
  else
    setup_port dev (bar + 3) ((offset + (idx - 6) * board.uart_offset) % U32) board.reg_shift

/-- `pci_default_setup`: BAR-indexed boards target `base + idx`, otherwise
the offset advances by `idx * uart_offset` within the base BAR.  `maxnr`
is computed in `resource_size_t` (64-bit) arithmetic and truncated to
`unsigned int`; on a `FL_REGION_SZ_CAP` board an index at or past `maxnr`
returns 1 ("not present"). -/
def pci_default_setup (dev : PciDev) (board : PciserialBoard) (idx : Nat) :
    SetupResult :=
  let bar0 := FL_GET_BASE board.flags
  let bar := if board.flags &&& FL_BASE_BARS ≠ 0 then bar0 + idx else bar0
  let offset :=
    if board.flags &&& FL_BASE_BARS ≠ 0 then board.first_offset
    else (board.first_offset + idx * board.uart_offset) % U32
  let maxnr :=
    (((pci_resource_len dev bar + U64 - board.first_offset) % U64) >>>
      (board.reg_shift + 3)) % U32
  if board.flags &&& FL_REGION_SZ_CAP ≠ 0 ∧ maxnr ≤ idx then SetupResult.notPresent
  else setup_port dev bar offset board.reg_shift

/-- `struct pci_serial_quirk`: a match pattern of four identity fields and
the hooks.  `probe` and `init` are modelled as optional functions of the
device returning the C `int`; `setup` is the per-port resolution strategy;
the `exit` hook has no observable result beyond the fact of being called,
so only its presence is recorded. -/
structure PciSerialQuirk where
  vendor : Nat
  device : Nat
  subvendor : Nat
  subdevice : Nat
  probe : Option (PciDev → Int)
  init : Option (PciDev → Int)
  setup : PciDev → PciserialBoard → Nat → SetupResult
  hasExit : Bool

/-- First entry of `pci_serial_quirks`: the ADDI-DATA APCI-7800 card. -/
def apci7800_quirk : PciSerialQuirk :=
  { vendor := PCI_VENDOR_ID_AMCC
    device := PCI_DEVICE_ID_AMCC_ADDIDATA_APCI7800
    subvendor := PCI_ANY_ID
    subdevice := PCI_ANY_ID
    probe := none
    init := none
    setup := addidata_apci7800_setup
    hasExit := false }

/-- Final entry of `pci_serial_quirks`: the "match everything" terminator. -/
def default_quirk : PciSerialQuirk :=
  { vendor := PCI_ANY_ID
    device := PCI_ANY_ID
    subvendor := PCI_ANY_ID
    subdevice := PCI_ANY_ID
    probe := none
    init := none
    setup := pci_default_setup
    hasExit := false }

def pci_serial_quirks : List PciSerialQuirk := [apci7800_quirk, default_quirk]

def quirk_id_matches (quirk_id dev_id : Nat) : Bool :=
  quirk_id == PCI_ANY_ID || quirk_id == dev_id

def quirk_matches (q : PciSerialQuirk) (dev : PciDev) : Bool :=
  quirk_id_matches q.vendor dev.vendor &&
  quirk_id_matches q.device dev.device &&
  quirk_id_matches q.subvendor dev.subsystem_vendor &&
  quirk_id_matches q.subdevice dev.subsystem_device

/-- `find_quirk`: scan `pci_serial_quirks` in order, return the first
matching entry.  The C loop has no bound and relies on the terminator
matching everything; the `Option` records whether a match was found. -/
def find_quirk (dev : PciDev) : Option PciSerialQuirk :=
  List.find? (fun q => quirk_matches q dev) pci_serial_quirks

/-- Total version of `find_quirk` used by the lifecycle code, which (like
the C loop) relies on the terminator invariant; the default is never
reached. -/
def find_quirk_total (dev : PciDev) : PciSerialQuirk :=
  (find_quirk dev).getD default_quirk

def get_pci_irq (dev : PciDev) (board : PciserialBoard) : Nat :=
  if board.flags &&& FL_NOIRQ ≠ 0 then 0 else dev.irq

/-! The `pci_boards` catalog, in `pci_board_num_t` enum order.  The
`pbn_b1_8_115200` slot has no initializer in the C array and is therefore
zero-filled. -/

def pbn_default : Nat := 0

def pbn_b1_8_115200 : Nat := 26

def mkBoard (flags num_ports base_baud uart_offset reg_shift first_offset : Nat) :
    PciserialBoard :=
  { flags := flags, num_ports := num_ports, base_baud := base_baud
    uart_offset := uart_offset, reg_shift := reg_shift, first_offset := first_offset }

def pci_boards : List PciserialBoard :=
  [ mkBoard FL_BASE0 1 115200 8 0 0,  -- pbn_default
    mkBoard FL_BASE0 1 115200 8 0 0,  -- pbn_b0_1_115200
    mkBoard FL_BASE0 2 115200 8 0 0,
    mkBoard FL_BASE0 4 115200 8 0 0,
    mkBoard FL_BASE0 5 115200 8 0 0,
    mkBoard FL_BASE0 8 115200 8 0 0,
    mkBoard FL_BASE0 1 921600 8 0 0,
    mkBoard FL_BASE0 2 921600 8 0 0,
    mkBoard FL_BASE0 4 921600 8 0 0,
    mkBoard FL_BASE0 2 1130000 8 0 0,
    mkBoard FL_BASE0 4 1152000 8 0 0,
    mkBoard FL_BASE0 4 1250000 8 0 0,
    mkBoard FL_BASE0 2 1843200 8 0 0,
    mkBoard FL_BASE0 4 1843200 8 0 0,
    mkBoard FL_BASE0 1 4000000 8 0 0,
    mkBoard (FL_BASE0 ||| FL_BASE_BARS) 1 115200 8 0 0,
    mkBoard (FL_BASE0 ||| FL_BASE_BARS) 2 115200 8 0 0,
    mkBoard (FL_BASE0 ||| FL_BASE_BARS) 4 115200 8 0 0,
    mkBoard (FL_BASE0 ||| FL_BASE_BARS) 8 115200 8 0 0,
    mkBoard (FL_BASE0 ||| FL_BASE_BARS) 1 460800 8 0 0,
    mkBoard (FL_BASE0 ||| FL_BASE_BARS) 2 460800 8 0 0,
    mkBoard (FL_BASE0 ||| FL_BASE_BARS) 4 460800 8 0 0,
    mkBoard (FL_BASE0 ||| FL_BASE_BARS) 1 921600 8 0 0,
    mkBoard (FL_BASE0 ||| FL_BASE_BARS) 2 921600 8 0 0,
    mkBoard (FL_BASE0 ||| FL_BASE_BARS) 4 921600 8 0 0,
    mkBoard (FL_BASE0 ||| FL_BASE_BARS) 8 921600 8 0 0,
    mkBoard 0 0 0 0 0 0,  -- pbn_b1_8_115200: no initializer, zero-filled
    mkBoard FL_BASE0 1 3906250 0x200 0 0x1000,
    mkBoard FL_BASE0 2 3906250 0x200 0 0x1000,
    mkBoard FL_BASE0 4 3906250 0x200 0 0x1000,
    mkBoard FL_BASE0 8 3906250 0x200 0 0x1000 ]

/-- `serial_pci_is_class_communication`: 0 if the class code is serial,
multiport-serial or modem communications with programming interface at
most 6, otherwise `-ENODEV`. -/
def serial_pci_is_class_communication (dev : PciDev) : Int :=
  if (dev.devClass >>> 8 ≠ PCI_CLASS_COMMUNICATION_SERIAL ∧
      dev.devClass >>> 8 ≠ PCI_CLASS_COMMUNICATION_MULTISERIAL ∧
      dev.devClass >>> 8 ≠ PCI_CLASS_COMMUNICATION_MODEM) ∨
     dev.devClass &&& 0xff > 6 then -ENODEV
  else 0

/-- Number of BARs among the six slots with the `IORESOURCE_MEM` bit. -/
def pci_guess_num_iomem (dev : PciDev) : Nat :=
  ((List.range PCI_NUM_BAR_RESOURCES).filter (fun i => (dev.resources i).memRegion)).length

/-- Number of BARs among the six slots with the `IORESOURCE_IO` bit. -/
def pci_guess_num_port (dev : PciDev) : Nat :=
  ((List.range PCI_NUM_BAR_RESOURCES).filter (fun i => (dev.resources i).portRegion)).length

/-- Index of the first I/O BAR, or -1 when there is none — exactly the
value the C `first_port` variable holds after the first scan loop. -/
def pci_guess_first_port (dev : PciDev) : Int :=
  match (List.range PCI_NUM_BAR_RESOURCES).find? (fun i => (dev.resources i).portRegion) with
  | some i => (i : Int)
  | none => -1

/-- Second scan of `serial_pci_guess_board`: fold over the six slots
looking for consecutive 8-byte I/O BARs; the state is the C pair
`(first_port, num_port)`. -/
def guess_bar_scan (dev : PciDev) : Int × Nat :=
  (List.range PCI_NUM_BAR_RESOURCES).foldl
    (fun s i =>
      if (dev.resources i).portRegion ∧ pci_resource_len dev i = 8 ∧
         (s.1 = -1 ∨ s.1 + (s.2 : Int) = (i : Int)) then
        (if s.1 = -1 then (i : Int) else s.1, s.2 + 1)
      else s)
    (-1, 0)

/-- `serial_pci_guess_board`: class gate, multiport-serial rejection,
then phase 1 (single I/O region) and phase 2 (run of 8-byte I/O BARs).
The board argument is the working copy that the C code mutates; the
result is the updated copy.  `num_ports` is assigned from 64-bit length
arithmetic into a C `unsigned int`, hence `% U32`; `flags` is assigned
from the `int` variable `first_port` into `unsigned int`. -/
def serial_pci_guess_board (dev : PciDev) (board : PciserialBoard) :
    Except Int PciserialBoard :=
  if serial_pci_is_class_communication dev ≠ 0 then Except.error (-ENODEV)
  else if dev.devClass >>> 8 = PCI_CLASS_COMMUNICATION_MULTISERIAL then
    Except.error (-ENODEV)
  else if pci_guess_num_iomem dev ≤ 1 ∧ pci_guess_num_port dev = 1 then
    Except.ok
      { board with
        flags := ((pci_guess_first_port dev) % (U32 : Int)).toNat
        num_ports := (pci_resource_len dev (pci_guess_first_port dev).toNat / 8) % U32 }
  else
    let s := guess_bar_scan dev
    if s.2 > 1 then
      Except.ok
        { board with
          flags := ((s.1 % (U32 : Int)).toNat) ||| FL_BASE_BARS
          num_ports := s.2 }
    else Except.error (-ENODEV)

/-- `serial_pci_matches`: the redundancy check between a catalog entry and
the heuristic's independent guess. -/
def serial_pci_matches (board guessed : PciserialBoard) : Bool :=
  board.num_ports == guessed.num_ports &&
  board.base_baud == guessed.base_baud &&
  board.uart_offset == guessed.uart_offset &&
  board.reg_shift == guessed.reg_shift &&
  board.first_offset == guessed.first_offset

/-- Observable effects of the lifecycle functions on the external world:
hook invocations, port registrations and per-port suspend/resume calls. -/
inductive AttachEvent where
  | initCalled (rc : Int)
  | exitCalled
  | setupCalled (idx : Nat)
  | registered (idx : Nat) (line : Int)
  | suspended (line : Int)
  | resumed (line : Int)
deriving DecidableEq

/-- Behaviour of the external collaborators during one attach attempt:
whether `kzalloc` succeeds and what `serial8250_register_8250_port`
returns for the port registered at loop index `i`. -/
structure AttachEnv where
  allocOk : Bool
  register : Nat → Int

/-- `struct serial_private`: the session.  `line` models the trailing
handle array; entries `0 ≤ i < nr` are the committed attached ports (a
write at index `nr` itself can remain from a failed registration, which
the C code also leaves in the array without counting it). -/
structure SerialPrivate where
  dev : PciDev
  nr : Nat
  quirk : PciSerialQuirk
  board : PciserialBoard
  line : List Int

/-- The attach loop of `addi_pciserial_init_ports`, starting at port
index `i` with `n` indices left to try.  Returns the final value of the
C loop variable `i` (which becomes `priv->nr`), the written prefix of the
`line` array, and the event trace.  The loop breaks on a nonzero `setup`
result or a negative registration handle. -/
def init_ports_loop (q : PciSerialQuirk) (env : AttachEnv) (dev : PciDev)
    (board : PciserialBoard) : Nat → Nat → Nat × List Int × List AttachEvent
  | i, 0 => (i, [], [])
  | i, Nat.succ n =>
    match q.setup dev board i with
    | SetupResult.ok _ =>
      let l := env.register i
      if l < 0 then (i, [l], [AttachEvent.setupCalled i, AttachEvent.registered i l])
      else
        let r := init_ports_loop q env dev board (i + 1) n
        (r.1, l :: r.2.1,
          AttachEvent.setupCalled i :: AttachEvent.registered i l :: r.2.2)
    | _ => (i, [], [AttachEvent.setupCalled i])

/-- Allocation and attach-loop tail of `addi_pciserial_init_ports`: on
`kzalloc` failure the `err_deinit` path runs the `exit` hook (when
present) and returns `-ENOMEM`; otherwise the loop runs and the session
is committed with `nr` equal to the index where the loop stopped. -/
def init_ports_alloc (q : PciSerialQuirk) (env : AttachEnv) (dev : PciDev)
    (board : PciserialBoard) (nr_ports : Nat) (evs0 : List AttachEvent) :
    Except Int SerialPrivate × List AttachEvent :=
  if env.allocOk = false then
    (Except.error (-ENOMEM),
      evs0 ++ if q.hasExit then [AttachEvent.exitCalled] else [])
  else
    let r := init_ports_loop q env dev board 0 nr_ports
    (Except.ok { dev := dev, nr := r.1, quirk := q, board := board, line := r.2.1 },
      evs0 ++ r.2.2)

/-- Body of `addi_pciserial_init_ports` after the quirk has been found:
run the optional `init` hook (a negative return aborts through `err_out`,
which does NOT run the `exit` hook; a positive return overrides the
nominal port count), then allocate and run the attach loop. -/
def init_ports_core (q : PciSerialQuirk) (env : AttachEnv) (dev : PciDev)
    (board : PciserialBoard) : Except Int SerialPrivate × List AttachEvent :=
  match q.init with
  | none => init_ports_alloc q env dev board board.num_ports []
  | some f =>
    let rc := f dev
    if rc < 0 then (Except.error rc, [AttachEvent.initCalled rc])
    else
      init_ports_alloc q env dev board
        (if rc = 0 then board.num_ports else rc.toNat)
        [AttachEvent.initCalled rc]

def addi_pciserial_init_ports (env : AttachEnv) (dev : PciDev)
    (board : PciserialBoard) : Except Int SerialPrivate × List AttachEvent :=
  init_ports_core (find_quirk_total dev) env dev board

/-- Port loop of `addi_pciserial_suspend_ports`: indices `i` to `i+n-1`,
suspending each handle that is nonnegative.  Out-of-range reads (which
the committed-session invariant rules out) default to -1 and are skipped. -/
def suspend_loop (line : List Int) : Nat → Nat → List AttachEvent
  | _, 0 => []
  | i, Nat.succ n =>
    (if 0 ≤ line.getD i (-1) then [AttachEvent.suspended (line.getD i (-1))] else []) ++
      suspend_loop line (i + 1) n

def addi_pciserial_suspend_ports (priv : SerialPrivate) : List AttachEvent :=
  suspend_loop priv.line 0 priv.nr ++
    (if priv.quirk.hasExit then [AttachEvent.exitCalled] else [])

/-- Port loop of `addi_pciserial_resume_ports`. -/
def resume_loop (line : List Int) : Nat → Nat → List AttachEvent
  | _, 0 => []
  | i, Nat.succ n =>
    (if 0 ≤ line.getD i (-1) then [AttachEvent.resumed (line.getD i (-1))] else []) ++
      resume_loop line (i + 1) n

/-- `addi_pciserial_resume_ports`: re-run the `init` hook when present
(its return value is ignored), then resume each attached port. -/
def addi_pciserial_resume_ports (priv : SerialPrivate) : List AttachEvent :=
  (match priv.quirk.init with
   | some f => [AttachEvent.initCalled (f priv.dev)]
   | none => []) ++
    resume_loop priv.line 0 priv.nr

/-- `serial8250_io_resume`: rebuild the session from the original
session's board descriptor.  A successful rebuild is swapped into the
driver data (the old session is freed); a failed rebuild leaves the old
driver data in place and the device undriven. -/
def serial8250_io_resume (env : AttachEnv) (dev : PciDev)
    (drvdata : Option SerialPrivate) : Option SerialPrivate × List AttachEvent :=
  match drvdata with
  | none => (none, [])
  | some priv =>
    let r := addi_pciserial_init_ports env dev priv.board
    match r.1 with
    | Except.ok n => (some n, r.2)
    | Except.error _ => (some priv, r.2)

lemma SetupResult.isOk_iff (r : SetupResult) : r.isOk = true ↔ ∃ w, r = SetupResult.ok w := by
  cases r <;> simp [SetupResult.isOk]

lemma setup_port_ok (dev : PciDev) (bar offset regshift : Nat)
    (hbar : bar < PCI_NUM_BAR_RESOURCES)
    (hmap : (dev.resources bar).memRegion = true →
      dev.iomapOk bar = true ∨ dev.iomapTable.isSome = true) :
    ∃ w, setup_port dev bar offset regshift = SetupResult.ok w := by
  unfold setup_port
  rw [if_neg (by omega)]
  by_cases hm : (dev.resources bar).memRegion
  · rcases hmap hm with h | h
    · simp [hm, h]
    · simp [hm, Option.isNone_eq_false_iff, Option.isSome_iff_ne_none.mp h]
  · simp [hm]

/-- Claim C2: for every device identity, `find_quirk` never fails: it
returns the first entry of `pci_serial_quirks` whose four identity fields
are each the `PCI_ANY_ID` wildcard or equal to the device's, the final
entry being the all-wildcard terminator (which matches every identity). -/
theorem claim2_find_quirk (dev : PciDev) :
    pci_serial_quirks.getLast? = some default_quirk ∧
    quirk_matches default_quirk dev = true ∧
    find_quirk dev =
      some (if quirk_matches apci7800_quirk dev = true then apci7800_quirk
            else default_quirk) := by
  refine ⟨rfl, ?_⟩
  have hdef : quirk_matches default_quirk dev = true := by
    simp [quirk_matches, quirk_id_matches, default_quirk]
  refine ⟨hdef, ?_⟩
  by_cases h : quirk_matches apci7800_quirk dev = true
  · simp [find_quirk, pci_serial_quirks, List.find?, h]
  · have h' : quirk_matches apci7800_quirk dev = false := by
      cases hq : quirk_matches apci7800_quirk dev
      · rfl
      · exact absurd hq h
    simp [find_quirk, pci_serial_quirks, List.find?, h', hdef]

/-- Claim C6: for every port index below 8, the APCI-7800 setup resolves
to BAR `base + idx / 2` at offset `first_offset + (idx mod 2) * uart_offset`
(reduced in the C `unsigned int`), with the board's register shift. -/
theorem claim6_apci7800_setup (dev : PciDev) (board : PciserialBoard) (idx : Nat)
    (h : idx < 8) :
    addidata_apci7800_setup dev board idx =
      setup_port dev (FL_GET_BASE board.flags + idx / 2)
        ((board.first_offset + idx % 2 * board.uart_offset) % U32) board.reg_shift := by
  interval_cases idx <;> rfl

def claim6_dev : PciDev :=
  { vendor := PCI_VENDOR_ID_AMCC, device := PCI_DEVICE_ID_AMCC_ADDIDATA_APCI7800,
    subsystem_vendor := 0x1234, subsystem_device := 0x5678,
    devClass := 0x070200, irq := 11,
    resources := fun b =>
      if b ≤ 3 then { memRegion := false, portRegion := true, start := 0x1000 + 0x10 * b, len := 16 }
      else { memRegion := false, portRegion := false, start := 0, len := 0 },
    iomapOk := fun _ => true, iomapTable := none }

def claim6_board : PciserialBoard := mkBoard FL_BASE0 8 115200 8 0 0

/-- Witness for C6: index 7 of the APCI-7800 board resolves to BAR 3,
offset 8. -/
theorem claim6_witness :
    (7 : Nat) < 8 ∧
    addidata_apci7800_setup claim6_dev claim6_board 7 =
      setup_port claim6_dev (FL_GET_BASE claim6_board.flags + 7 / 2)
        ((claim6_board.first_offset + 7 % 2 * claim6_board.uart_offset) % U32)
        claim6_board.reg_shift :=
  ⟨by decide, claim6_apci7800_setup claim6_dev claim6_board 7 (by decide)⟩

/-- Claim C1: `pci_default_setup` targets BAR `base + idx` when the board
is BAR-indexed and otherwise the base BAR at offset
`first_offset + idx * uart_offset`; on a capacity-capped board
(`FL_REGION_SZ_CAP`) every index at or past
`maxPorts = (region length of the target BAR - first_offset) >>> (reg_shift + 3)`
returns "not present", and every smaller index resolves (a valid window,
given a target BAR in range that is mappable when memory-backed). -/
theorem claim1_default_setup (dev : PciDev) (board : PciserialBoard) (idx : Nat)
    (tbar toff maxPorts : Nat)
    (htbar : tbar = if board.flags &&& FL_BASE_BARS ≠ 0 then FL_GET_BASE board.flags + idx
                    else FL_GET_BASE board.flags)
    (htoff : toff = if board.flags &&& FL_BASE_BARS ≠ 0 then board.first_offset
                    else board.first_offset + idx * board.uart_offset)
    (hmaxp : maxPorts = (pci_resource_len dev tbar - board.first_offset) >>> (board.reg_shift + 3))
    (hfo : board.first_offset ≤ pci_resource_len dev tbar)
    (hlen : pci_resource_len dev tbar < U64)
    (hm32 : maxPorts < U32) :
    (board.flags &&& FL_REGION_SZ_CAP = 0 → toff < U32 →
      pci_default_setup dev board idx = setup_port dev tbar toff board.reg_shift) ∧
    (board.flags &&& FL_REGION_SZ_CAP ≠ 0 → maxPorts ≤ idx →
      pci_default_setup dev board idx = SetupResult.notPresent) ∧
    (board.flags &&& FL_REGION_SZ_CAP ≠ 0 → idx < maxPorts → toff < U32 →
      pci_default_setup dev board idx = setup_port dev tbar toff board.reg_shift ∧
      (tbar < PCI_NUM_BAR_RESOURCES →
        ((dev.resources tbar).memRegion = true →
          dev.iomapOk tbar = true ∨ dev.iomapTable.isSome = true) →
        ∃ w, pci_default_setup dev board idx = SetupResult.ok w)) := by
  subst htbar
  have hmax_eq :
      (((pci_resource_len dev
          (if board.flags &&& FL_BASE_BARS ≠ 0 then FL_GET_BASE board.flags + idx
           else FL_GET_BASE board.flags) + U64 - board.first_offset) % U64) >>>
        (board.reg_shift + 3)) % U32 = maxPorts := by
    rw [Nat.sub_add_comm hfo, Nat.add_mod_right,
      Nat.mod_eq_of_lt (lt_of_le_of_lt (Nat.sub_le _ _) hlen), ← hmaxp,
      Nat.mod_eq_of_lt hm32]
  have hoff : ∀ h2 : toff < U32,
      (if board.flags &&& FL_BASE_BARS ≠ 0 then board.first_offset
       else (board.first_offset + idx * board.uart_offset) % U32) = toff := by
    intro h2
    by_cases hb : board.flags &&& FL_BASE_BARS ≠ 0
    · simp only [if_pos hb] at htoff ⊢
      exact htoff.symm
    · simp only [if_neg hb] at htoff ⊢
      rw [htoff]
      exact Nat.mod_eq_of_lt (htoff ▸ h2)
  refine ⟨?_, ?_, ?_⟩
  · intro hcap h2
    simp only [pci_default_setup, hmax_eq, hoff h2, hcap]
    simp
  · intro hcap hle
    simp only [pci_default_setup, hmax_eq]
    rw [if_pos ⟨hcap, hle⟩]
  · intro hcap hlt h2
    have hres : pci_default_setup dev board idx =
        setup_port dev
          (if board.flags &&& FL_BASE_BARS ≠ 0 then FL_GET_BASE board.flags + idx
           else FL_GET_BASE board.flags) toff board.reg_shift := by
      simp only [pci_default_setup, hmax_eq, hoff h2]
      rw [if_neg (by omega)]
    refine ⟨hres, ?_⟩
    intro hbar hmap
    obtain ⟨w, hw⟩ := setup_port_ok dev _ toff board.reg_shift hbar hmap
    exact ⟨w, hres.trans hw⟩

def claim1_dev : PciDev :=
  { vendor := 0x4950, device := 0x0101, subsystem_vendor := 1, subsystem_device := 2,
    devClass := 0x070000, irq := 5,
    resources := fun b =>
      if b = 0 then { memRegion := false, portRegion := true, start := 0x100, len := 32 }
      else { memRegion := false, portRegion := false, start := 0, len := 0 },
    iomapOk := fun _ => true, iomapTable := none }

def claim1_board : PciserialBoard := mkBoard (FL_BASE0 ||| FL_REGION_SZ_CAP) 8 115200 8 0 0

/-- Witness for C1: a capacity-capped board over a 32-byte region has
`maxPorts = 4`; index 2 resolves to BAR 0 offset 16 and index 6 is
"not present". -/
theorem claim1_witness :
    pci_default_setup claim1_dev claim1_board 2 =
      setup_port claim1_dev 0 16 claim1_board.reg_shift ∧
    pci_default_setup claim1_dev claim1_board 6 = SetupResult.notPresent ∧
    (∃ w, pci_default_setup claim1_dev claim1_board 2 = SetupResult.ok w) := by
  have h2 := claim1_default_setup claim1_dev claim1_board 2 0 16 4
    (by decide) (by decide) (by decide) (by decide) (by decide) (by decide)
  have h6 := claim1_default_setup claim1_dev claim1_board 6 0 48 4
    (by decide) (by decide) (by decide) (by decide) (by decide) (by decide)
  exact ⟨(h2.2.2 (by decide) (by decide) (by decide)).1,
    h6.2.1 (by decide) (by decide),
    (h2.2.2 (by decide) (by decide) (by decide)).2 (by decide) (by decide)⟩

lemma first_port_lt (dev : PciDev) (fp : Nat) (h : pci_guess_first_port dev = (fp : Int)) :
    fp < 6 := by
  unfold pci_guess_first_port at h
  cases hf : (List.range PCI_NUM_BAR_RESOURCES).find?
      (fun i => (dev.resources i).portRegion) with
  | none =>
    rw [hf] at h
    dsimp only at h
    omega
  | some i =>
    rw [hf] at h
    dsimp only at h
    have hi : i = fp := by exact_mod_cast h
    subst hi
    have hmem := List.mem_of_find?_eq_some hf
    simpa [PCI_NUM_BAR_RESOURCES] using List.mem_range.mp hmem

/-- Claim C5 (amended): the heuristic rejects every multiport-serial-class
device; and for a device that passes the communications-class gate, is
not multiport-serial, and exposes at most one memory region and exactly
one I/O region, it succeeds immediately with port count = that region's
length / 8 and base BAR = that region's index. -/
theorem claim5_heuristic (dev : PciDev) (board : PciserialBoard) :
    (dev.devClass >>> 8 = PCI_CLASS_COMMUNICATION_MULTISERIAL →
      serial_pci_guess_board dev board = Except.error (-ENODEV)) ∧
    (serial_pci_is_class_communication dev = 0 →
      dev.devClass >>> 8 ≠ PCI_CLASS_COMMUNICATION_MULTISERIAL →
      pci_guess_num_iomem dev ≤ 1 →
      pci_guess_num_port dev = 1 →
      ∀ fp : Nat, pci_guess_first_port dev = (fp : Int) →
      pci_resource_len dev fp / 8 < U32 →
      serial_pci_guess_board dev board =
        Except.ok
          { board with flags := fp, num_ports := pci_resource_len dev fp / 8 }) := by
  constructor
  · intro hm
    unfold serial_pci_guess_board
    by_cases hc : serial_pci_is_class_communication dev ≠ 0
    · rw [if_pos hc]
    · rw [if_neg hc, if_pos hm]
  · intro hc hm hio hport fp hfp hsz
    have hfp6 := first_port_lt dev fp hfp
    have hfpU : fp < U32 := lt_of_lt_of_le hfp6 (by norm_num [U32])
    unfold serial_pci_guess_board
    rw [if_neg (by simp [hc]), if_neg hm, if_pos ⟨hio, hport⟩]
    have h1 : ((pci_guess_first_port dev) % (U32 : Int)).toNat = fp := by
      rw [hfp, Int.emod_eq_of_lt (Int.natCast_nonneg fp) (by exact_mod_cast hfpU)]
      exact Int.toNat_natCast fp
    have h2 : (pci_guess_first_port dev).toNat = fp := by
      rw [hfp]; exact Int.toNat_natCast fp
    rw [h1, h2, Nat.mod_eq_of_lt hsz]

def claim5_bad_dev : PciDev :=
  { vendor := 0x11bb, device := 0x2222, subsystem_vendor := 3, subsystem_device := 4,
    devClass := 0x080000, irq := 9,
    resources := fun b =>
      if b = 0 then { memRegion := false, portRegion := true, start := 0x200, len := 64 }
      else { memRegion := false, portRegion := false, start := 0, len := 0 },
    iomapOk := fun _ => true, iomapTable := none }

def claim5_board : PciserialBoard := mkBoard FL_BASE0 1 115200 8 0 0

/-- Counterexample to C5 as stated: a device that is not of
multiport-serial class and exposes no memory region and exactly one
64-byte I/O region, yet the heuristic rejects it (its class code is not a
communications class), instead of succeeding with 8 ports. -/
theorem claim5_counterexample :
    claim5_bad_dev.devClass >>> 8 ≠ PCI_CLASS_COMMUNICATION_MULTISERIAL ∧
    pci_guess_num_iomem claim5_bad_dev ≤ 1 ∧
    pci_guess_num_port claim5_bad_dev = 1 ∧
    pci_resource_len claim5_bad_dev 0 = 64 ∧
    serial_pci_guess_board claim5_bad_dev claim5_board = Except.error (-ENODEV) :=
  ⟨by decide, by decide, by decide, rfl, rfl⟩

def claim5_good_dev : PciDev :=
  { claim5_bad_dev with devClass := 0x070000 }

/-- Witness for C5: a serial-class device with a single 64-byte I/O
region yields 8 ports; a multiport-serial device is rejected. -/
theorem claim5_witness :
    serial_pci_guess_board claim5_good_dev claim5_board =
      Except.ok { claim5_board with flags := 0, num_ports := 8 } ∧
    serial_pci_guess_board { claim5_good_dev with devClass := 0x070200 } claim5_board =
      Except.error (-ENODEV) := by
  constructor
  · exact (claim5_heuristic claim5_good_dev claim5_board).2 (by decide) (by decide)
      (by decide) (by decide) 0 (by decide) (by decide)
  · exact (claim5_heuristic { claim5_good_dev with devClass := 0x070200 } claim5_board).1
      (by decide)

lemma first_port_emod (dev : PciDev) (fp : Nat) (h : pci_guess_first_port dev = (fp : Int)) :
    ((pci_guess_first_port dev) % (U32 : Int)).toNat = fp := by
  have hfp6 := first_port_lt dev fp h
  rw [h, Int.emod_eq_of_lt (Int.natCast_nonneg fp)
    (by exact_mod_cast lt_of_lt_of_le hfp6 (by norm_num [U32]))]
  exact Int.toNat_natCast fp

lemma guess_board_frame (dev : PciDev) (board b' : PciserialBoard)
    (h : serial_pci_guess_board dev board = Except.ok b') :
    b'.base_baud = board.base_baud ∧ b'.uart_offset = board.uart_offset ∧
    b'.reg_shift = board.reg_shift ∧ b'.first_offset = board.first_offset := by
  simp only [serial_pci_guess_board] at h
  split at h
  · simp at h
  · split at h
    · simp at h
    · split at h
      · injection h with h
        subst h
        exact ⟨rfl, rfl, rfl, rfl⟩
      · split at h
        · injection h with h
          subst h
          exact ⟨rfl, rfl, rfl, rfl⟩
        · simp at h

/-- Claim C10: a successful heuristic run only modifies `flags` and
`num_ports` of the working board copy; starting from the `pbn_default`
catalog entry, the resolved descriptor keeps base baud 115200, stride 8,
shift 0 and first offset 0; and the phase-1 path stores the I/O region's
BAR index directly in `flags`. -/
theorem claim10_guess_writes (dev : PciDev) :
    (∀ board b', serial_pci_guess_board dev board = Except.ok b' →
      b'.base_baud = board.base_baud ∧ b'.uart_offset = board.uart_offset ∧
      b'.reg_shift = board.reg_shift ∧ b'.first_offset = board.first_offset) ∧
    (∀ b', serial_pci_guess_board dev (pci_boards.getD pbn_default (mkBoard 0 0 0 0 0 0)) =
        Except.ok b' →
      b'.base_baud = 115200 ∧ b'.uart_offset = 8 ∧ b'.reg_shift = 0 ∧ b'.first_offset = 0) ∧
    (∀ board b' (fp : Nat), pci_guess_num_iomem dev ≤ 1 → pci_guess_num_port dev = 1 →
      pci_guess_first_port dev = (fp : Int) →
      serial_pci_guess_board dev board = Except.ok b' → b'.flags = fp) := by
  refine ⟨fun board b' h => guess_board_frame dev board b' h, ?_, ?_⟩
  · intro b' h
    obtain ⟨h1, h2, h3, h4⟩ := guess_board_frame dev _ b' h
    exact ⟨h1.trans rfl, h2.trans rfl, h3.trans rfl, h4.trans rfl⟩
  · intro board b' fp hio hport hfp h
    simp only [serial_pci_guess_board] at h
    split at h
    · simp at h
    · split at h
      · simp at h
      · split at h
        · injection h with h
          subst h
          exact first_port_emod dev fp hfp
        · rename_i hcond
          exact absurd ⟨hio, hport⟩ hcond

def claim10_dev : PciDev :=
  { vendor := 0x3333, device := 0x4444, subsystem_vendor := 7, subsystem_device := 8,
    devClass := 0x070000, irq := 10,
    resources := fun b =>
      if b = 0 then { memRegion := false, portRegion := true, start := 0x2f8, len := 64 }
      else { memRegion := false, portRegion := false, start := 0, len := 0 },
    iomapOk := fun _ => true, iomapTable := none }

def claim10_res : PciserialBoard := mkBoard 0 8 115200 8 0 0

/-- Witness for C10: guessing from the default catalog entry for a
serial-class device with one 64-byte I/O BAR keeps the default baud,
stride, shift and first offset, and stores BAR index 0 in `flags`. -/
theorem claim10_witness :
    claim10_res.base_baud = 115200 ∧ claim10_res.uart_offset = 8 ∧
    claim10_res.reg_shift = 0 ∧ claim10_res.first_offset = 0 ∧ claim10_res.flags = 0 := by
  have h : serial_pci_guess_board claim10_dev
      (pci_boards.getD pbn_default (mkBoard 0 0 0 0 0 0)) = Except.ok claim10_res := rfl
  obtain ⟨hb, hu, hr, hf⟩ := (claim10_guess_writes claim10_dev).2.1 claim10_res h
  exact ⟨hb, hu, hr, hf,
    (claim10_guess_writes claim10_dev).2.2 _ claim10_res 0 (by decide) (by decide)
      (by decide) h⟩

lemma init_ports_loop_inv (q : PciSerialQuirk) (env : AttachEnv) (dev : PciDev)
    (board : PciserialBoard) :
    ∀ n i, i ≤ (init_ports_loop q env dev board i n).1 ∧
      (init_ports_loop q env dev board i n).1 - i ≤
        (init_ports_loop q env dev board i n).2.1.length ∧
      (∀ j, j < (init_ports_loop q env dev board i n).1 - i →
        0 ≤ (init_ports_loop q env dev board i n).2.1.getD j (-1)) := by
  intro n
  induction n with
  | zero =>
    intro i
    exact ⟨le_refl i, by simp [init_ports_loop], fun j hj => absurd hj (by simp [init_ports_loop])⟩
  | succ n ih =>
    intro i
    cases hs : q.setup dev board i with
    | ok w =>
      by_cases hl : env.register i < 0
      · simp only [init_ports_loop, hs, if_pos hl]
        exact ⟨le_refl i, by simp, fun j hj => absurd hj (by omega)⟩
      · simp only [init_ports_loop, hs, if_neg hl]
        obtain ⟨ih1, ih2, ih3⟩ := ih (i + 1)
        refine ⟨by omega, by simp only [List.length_cons]; omega, ?_⟩
        intro j hj
        cases j with
        | zero => rw [List.getD_cons_zero]; omega
        | succ j =>
          rw [List.getD_cons_succ]
          exact ih3 j (by omega)
    | notPresent =>
      simp only [init_ports_loop, hs]
      exact ⟨le_refl i, by simp, fun j hj => absurd hj (by omega)⟩
    | err e =>
      simp only [init_ports_loop, hs]
      exact ⟨le_refl i, by simp, fun j hj => absurd hj (by omega)⟩

lemma init_ports_loop_fail0 (q : PciSerialQuirk) (env : AttachEnv) (dev : PciDev)
    (board : PciserialBoard) (i n : Nat) (hn : 0 < n)
    (hfail : (q.setup dev board i).isOk = false ∨ env.register i < 0) :
    (init_ports_loop q env dev board i n).1 = i ∧
    (∀ j, AttachEvent.setupCalled j ∈ (init_ports_loop q env dev board i n).2.2 → j = i) ∧
    (∀ j l, AttachEvent.registered j l ∈ (init_ports_loop q env dev board i n).2.2 →
      j = i) := by
  cases n with
  | zero => omega
  | succ n =>
    cases hs : q.setup dev board i with
    | ok w =>
      have hl : env.register i < 0 := by
        rcases hfail with hf | hf
        · rw [hs] at hf
          simp [SetupResult.isOk] at hf
        · exact hf
      have hcase : init_ports_loop q env dev board i (n + 1) =
          (i, [env.register i],
            [AttachEvent.setupCalled i, AttachEvent.registered i (env.register i)]) := by
        simp only [init_ports_loop, hs, if_pos hl]
      rw [hcase]
      refine ⟨rfl, ?_, ?_⟩
      · intro j hj
        simp only [List.mem_cons, List.not_mem_nil, or_false] at hj
        rcases hj with hj | hj
        · injection hj
        · injection hj
      · intro j l hj
        simp only [List.mem_cons, List.not_mem_nil, or_false] at hj
        rcases hj with hj | hj
        · injection hj
        · injection hj
    | notPresent =>
      have hcase : init_ports_loop q env dev board i (n + 1) =
          (i, [], [AttachEvent.setupCalled i]) := by
        simp only [init_ports_loop, hs]
      rw [hcase]
      refine ⟨rfl, ?_, ?_⟩
      · intro j hj
        simp only [List.mem_cons, List.not_mem_nil, or_false] at hj
        injection hj
      · intro j l hj
        simp only [List.mem_cons, List.not_mem_nil, or_false] at hj
        injection hj
    | err e =>
      have hcase : init_ports_loop q env dev board i (n + 1) =
          (i, [], [AttachEvent.setupCalled i]) := by
        simp only [init_ports_loop, hs]
      rw [hcase]
      refine ⟨rfl, ?_, ?_⟩
      · intro j hj
        simp only [List.mem_cons, List.not_mem_nil, or_false] at hj
        injection hj
      · intro j l hj
        simp only [List.mem_cons, List.not_mem_nil, or_false] at hj
        injection hj

lemma init_ports_loop_step (q : PciSerialQuirk) (env : AttachEnv) (dev : PciDev)
    (board : PciserialBoard) (i n : Nat)
    (hok : (q.setup dev board i).isOk = true) (hreg : 0 ≤ env.register i) :
    init_ports_loop q env dev board i (n + 1) =
      ((init_ports_loop q env dev board (i + 1) n).1,
       env.register i :: (init_ports_loop q env dev board (i + 1) n).2.1,
       AttachEvent.setupCalled i :: AttachEvent.registered i (env.register i) ::
         (init_ports_loop q env dev board (i + 1) n).2.2) := by
  obtain ⟨w, hw⟩ := (SetupResult.isOk_iff (q.setup dev board i)).mp hok
  simp only [init_ports_loop, hw, if_neg (by omega : ¬ env.register i < 0)]

lemma init_ports_loop_break (q : PciSerialQuirk) (env : AttachEnv) (dev : PciDev)
    (board : PciserialBoard) :
    ∀ k i n, k < n →
    (∀ j, j < k → (q.setup dev board (i + j)).isOk = true ∧ 0 ≤ env.register (i + j)) →
    ((q.setup dev board (i + k)).isOk = false ∨ env.register (i + k) < 0) →
    (init_ports_loop q env dev board i n).1 = i + k ∧
    (∀ j, AttachEvent.setupCalled j ∈ (init_ports_loop q env dev board i n).2.2 →
      j ≤ i + k) ∧
    (∀ j l, AttachEvent.registered j l ∈ (init_ports_loop q env dev board i n).2.2 →
      j ≤ i + k) := by
  intro k
  induction k with
  | zero =>
    intro i n hn hok hfail
    rw [Nat.add_zero] at hfail
    obtain ⟨h1, h2, h3⟩ := init_ports_loop_fail0 q env dev board i n hn hfail
    exact ⟨by omega, fun j hj => by have := h2 j hj; omega,
      fun j l hj => by have := h3 j l hj; omega⟩
  | succ k ih =>
    intro i n hn hok hfail
    cases n with
    | zero => omega
    | succ n =>
      obtain ⟨hs, hr⟩ := hok 0 (Nat.succ_pos k)
      rw [Nat.add_zero] at hs hr
      have hok' : ∀ j, j < k →
          (q.setup dev board (i + 1 + j)).isOk = true ∧ 0 ≤ env.register (i + 1 + j) := by
        intro j hj
        have h := hok (j + 1) (by omega)
        rwa [show i + (j + 1) = i + 1 + j by omega] at h
      have hfail' : (q.setup dev board (i + 1 + k)).isOk = false ∨
          env.register (i + 1 + k) < 0 := by
        rwa [show i + (k + 1) = i + 1 + k by omega] at hfail
      obtain ⟨h1, h2, h3⟩ := ih (i + 1) n (by omega) hok' hfail'
      rw [init_ports_loop_step q env dev board i n hs hr]
      refine ⟨by simpa using by omega, ?_, ?_⟩
      · intro j hj
        simp only [List.mem_cons] at hj
        rcases hj with hj | hj | hj
        · injection hj with h
          omega
        · injection hj
        · have := h2 j hj
          omega
      · intro j l hj
        simp only [List.mem_cons] at hj
        rcases hj with hj | hj | hj
        · injection hj
        · injection hj with ha hb
          omega
        · have := h3 j l hj
          omega

lemma init_ports_alloc_ok (q : PciSerialQuirk) (env : AttachEnv) (dev : PciDev)
    (board : PciserialBoard) (nr_ports : Nat) (evs0 : List AttachEvent)
    (p : SerialPrivate) (evs : List AttachEvent)
    (h : init_ports_alloc q env dev board nr_ports evs0 = (Except.ok p, evs)) :
    p.quirk = q ∧ p.board = board ∧ p.dev = dev ∧
    (init_ports_loop q env dev board 0 nr_ports).1 = p.nr ∧
    (init_ports_loop q env dev board 0 nr_ports).2.1 = p.line := by
  unfold init_ports_alloc at h
  split at h
  · simp at h
  · rw [Prod.mk.injEq] at h
    obtain ⟨h1, h2⟩ := h
    injection h1 with h1
    subst h1
    exact ⟨rfl, rfl, rfl, rfl, rfl⟩

lemma init_ports_core_ok (q : PciSerialQuirk) (env : AttachEnv) (dev : PciDev)
    (board : PciserialBoard) (p : SerialPrivate) (evs : List AttachEvent)
    (h : init_ports_core q env dev board = (Except.ok p, evs)) :
    p.quirk = q ∧ p.board = board ∧ p.dev = dev ∧
    ∃ n, (init_ports_loop q env dev board 0 n).1 = p.nr ∧
      (init_ports_loop q env dev board 0 n).2.1 = p.line := by
  unfold init_ports_core at h
  split at h
  · obtain ⟨a, b, c, d, e⟩ := init_ports_alloc_ok q env dev board board.num_ports [] p evs h
    exact ⟨a, b, c, board.num_ports, d, e⟩
  · dsimp only at h
    split at h
    · simp at h
    · obtain ⟨a, b, c, d, e⟩ := init_ports_alloc_ok q env dev board _ _ p evs h
      exact ⟨a, b, c, _, d, e⟩

lemma suspend_loop_filter (line : List Int) :
    ∀ n i, suspend_loop line i n =
      ((List.range' i n).filter (fun j => decide (0 ≤ line.getD j (-1)))).map
        (fun j => AttachEvent.suspended (line.getD j (-1))) := by
  intro n
  induction n with
  | zero => intro i; simp [suspend_loop]
  | succ n ih =>
    intro i
    rw [List.range'_succ i n 1]
    by_cases hi : 0 ≤ line.getD i (-1)
    · have hi' : 0 ≤ (getElem? line i).getD (-1) := by simpa [List.getD] using hi
      simp [suspend_loop, List.filter_cons, hi, hi', ih (i + 1)]
    · have hi' : ¬ 0 ≤ (getElem? line i).getD (-1) := by simpa [List.getD] using hi
      simp [suspend_loop, List.filter_cons, hi, hi', ih (i + 1)]

lemma resume_loop_filter (line : List Int) :
    ∀ n i, resume_loop line i n =
      ((List.range' i n).filter (fun j => decide (0 ≤ line.getD j (-1)))).map
        (fun j => AttachEvent.resumed (line.getD j (-1))) := by
  intro n
  induction n with
  | zero => intro i; simp [resume_loop]
  | succ n ih =>
    intro i
    rw [List.range'_succ i n 1]
    by_cases hi : 0 ≤ line.getD i (-1)
    · have hi' : 0 ≤ (getElem? line i).getD (-1) := by simpa [List.getD] using hi
      simp [resume_loop, List.filter_cons, hi, hi', ih (i + 1)]
    · have hi' : ¬ 0 ≤ (getElem? line i).getD (-1) := by simpa [List.getD] using hi
      simp [resume_loop, List.filter_cons, hi, hi', ih (i + 1)]

/-- Claim C3 (amended): a negative return from the `init` hook aborts the
attach with exactly that error and returns through `err_out`, which does
NOT invoke the `exit` hook (the event trace is only the `init` call); the
`exit` hook runs instead on the later session-allocation failure path. -/
theorem claim3_init_error (q : PciSerialQuirk) (env : AttachEnv) (dev : PciDev)
    (board : PciserialBoard) (f : PciDev → Int) (hi : q.init = some f) :
    (f dev < 0 →
      init_ports_core q env dev board =
        (Except.error (f dev), [AttachEvent.initCalled (f dev)])) ∧
    (0 ≤ f dev → env.allocOk = false →
      init_ports_core q env dev board =
        (Except.error (-ENOMEM),
          AttachEvent.initCalled (f dev) ::
            (if q.hasExit then [AttachEvent.exitCalled] else []))) := by
  constructor
  · intro hrc
    unfold init_ports_core
    rw [hi]
    dsimp only
    rw [if_pos hrc]
  · intro hrc halloc
    unfold init_ports_core init_ports_alloc
    rw [hi]
    dsimp only
    rw [if_neg (by omega : ¬ f dev < 0), if_pos halloc]
    simp

def claim3_dev : PciDev :=
  { vendor := 0x5555, device := 0x6666, subsystem_vendor := 1, subsystem_device := 2,
    devClass := 0x070000, irq := 3,
    resources := fun b =>
      if b = 0 then { memRegion := false, portRegion := true, start := 0x3e8, len := 32 }
      else { memRegion := false, portRegion := false, start := 0, len := 0 },
    iomapOk := fun _ => true, iomapTable := none }

def claim3_board : PciserialBoard := mkBoard FL_BASE0 4 115200 8 0 0

def claim3_q : PciSerialQuirk :=
  { default_quirk with init := some (fun _ => -5), hasExit := true }

def claim3_env : AttachEnv := { allocOk := true, register := fun i => (i : Int) }

/-- Counterexample to C3 as stated: a quirk whose `init` hook fails with
-5 and which has an `exit` hook; the attach aborts with -5 but the trace
contains no `exit` invocation — the hook is skipped by `goto err_out`. -/
theorem claim3_counterexample :
    claim3_q.hasExit = true ∧
    init_ports_core claim3_q claim3_env claim3_dev claim3_board =
      (Except.error (-5), [AttachEvent.initCalled (-5)]) ∧
    AttachEvent.exitCalled ∉ (init_ports_core claim3_q claim3_env claim3_dev claim3_board).2 :=
  ⟨rfl, rfl, by decide⟩

/-- Witness for C3 (amended) at a concrete failing `init` hook. -/
theorem claim3_witness :
    init_ports_core claim3_q claim3_env claim3_dev claim3_board =
      (Except.error (-5), [AttachEvent.initCalled (-5)]) :=
  (claim3_init_error claim3_q claim3_env claim3_dev claim3_board (fun _ => -5) rfl).1
    (by decide)

/-- Claim C4 (amended): a "not present" or failed-registration result at
port index `k` truncates the attach loop: the session is committed
successfully with attached count `k`, and no index beyond `k` is ever
attempted — including the case `k = 0`, which still yields a successful
(zero-port) session, not a session failure. -/
theorem claim4_attach_truncation (q : PciSerialQuirk) (env : AttachEnv) (dev : PciDev)
    (board : PciserialBoard) (k : Nat)
    (hinit : q.init = none) (halloc : env.allocOk = true)
    (hok : ∀ j, j < k → (q.setup dev board j).isOk = true ∧ 0 ≤ env.register j)
    (hk : k < board.num_ports)
    (hfail : (q.setup dev board k).isOk = false ∨ env.register k < 0) :
    ∃ p, (init_ports_core q env dev board).1 = Except.ok p ∧ p.nr = k ∧
      (∀ j, AttachEvent.setupCalled j ∈ (init_ports_core q env dev board).2 → j ≤ k) ∧
      (∀ j l, AttachEvent.registered j l ∈ (init_ports_core q env dev board).2 →
        j ≤ k) := by
  have hbreak := init_ports_loop_break q env dev board k 0 board.num_ports hk
    (by intro j hj; simpa using hok j hj) (by simpa using hfail)
  unfold init_ports_core init_ports_alloc
  rw [hinit]
  dsimp only
  rw [if_neg (by simp [halloc])]
  refine ⟨_, rfl, ?_, ?_, ?_⟩
  · show (init_ports_loop q env dev board 0 board.num_ports).1 = k
    have := hbreak.1
    omega
  · intro j hj
    simp only [List.nil_append] at hj
    have := hbreak.2.1 j hj
    omega
  · intro j l hj
    simp only [List.nil_append] at hj
    have := hbreak.2.2 j l hj
    omega

def claim4_dev : PciDev :=
  { vendor := 0x7777, device := 0x8888, subsystem_vendor := 1, subsystem_device := 2,
    devClass := 0x070000, irq := 6,
    resources := fun b =>
      if b = 0 then { memRegion := false, portRegion := true, start := 0x2e8, len := 0 }
      else { memRegion := false, portRegion := false, start := 0, len := 0 },
    iomapOk := fun _ => true, iomapTable := none }

def claim4_board : PciserialBoard := mkBoard (FL_BASE0 ||| FL_REGION_SZ_CAP) 4 115200 8 0 0

def claim4_env : AttachEnv := { allocOk := true, register := fun i => (i : Int) }

/-- Counterexample to C4 as stated: on a capacity-capped board whose
region is empty, `setup` fails ("not present") already at index 0, yet
the attach commits a successful zero-port session — it is NOT treated as
a session failure, contrary to the claim's exception clause. -/
theorem claim4_counterexample :
    (default_quirk.setup claim4_dev claim4_board 0).isOk = false ∧
    init_ports_core default_quirk claim4_env claim4_dev claim4_board =
      (Except.ok
        { dev := claim4_dev, nr := 0, quirk := default_quirk,
          board := claim4_board, line := [] },
       [AttachEvent.setupCalled 0]) :=
  ⟨rfl, rfl⟩

def claim4w_dev : PciDev :=
  { claim4_dev with
    resources := fun b =>
      if b = 0 then { memRegion := false, portRegion := true, start := 0x2e8, len := 16 }
      else { memRegion := false, portRegion := false, start := 0, len := 0 } }

/-- Witness for C4 (amended): a 16-byte capped region gives capacity 2 on
a nominally 4-port board; the loop truncates at index 2 with a committed
session of 2 ports and no attempt beyond index 2. -/
theorem claim4_witness :
    ∃ p, (init_ports_core default_quirk claim4_env claim4w_dev claim4_board).1 =
        Except.ok p ∧ p.nr = 2 ∧
      (∀ j, AttachEvent.setupCalled j ∈
        (init_ports_core default_quirk claim4_env claim4w_dev claim4_board).2 → j ≤ 2) ∧
      (∀ j l, AttachEvent.registered j l ∈
        (init_ports_core default_quirk claim4_env claim4w_dev claim4_board).2 → j ≤ 2) :=
  claim4_attach_truncation default_quirk claim4_env claim4w_dev claim4_board 2
    rfl rfl (by decide) (by decide) (Or.inl (by decide))

/-- Claim C9: a session committed by a successful attach has all stored
handles for indices below the attached count nonnegative (a negative
handle breaks the loop before being counted), so the `line[i] >= 0`
guards in suspend are never false for attached indices: suspend touches
every attached index. -/
theorem claim9_committed_lines (q : PciSerialQuirk) (env : AttachEnv) (dev : PciDev)
    (board : PciserialBoard) (p : SerialPrivate) (evs : List AttachEvent)
    (h : init_ports_core q env dev board = (Except.ok p, evs)) :
    p.nr ≤ p.line.length ∧
    (∀ i, i < p.nr → 0 ≤ p.line.getD i (-1)) ∧
    addi_pciserial_suspend_ports p =
      (List.range p.nr).map (fun i => AttachEvent.suspended (p.line.getD i (-1))) ++
        (if p.quirk.hasExit then [AttachEvent.exitCalled] else []) := by
  obtain ⟨hq, hb, hd, n, h1, h2⟩ := init_ports_core_ok q env dev board p evs h
  obtain ⟨i1, i2, i3⟩ := init_ports_loop_inv q env dev board n 0
  rw [h1, h2] at i2 i3
  have hlen : p.nr ≤ p.line.length := by omega
  have hpos : ∀ i, i < p.nr → 0 ≤ p.line.getD i (-1) := by
    intro i hi
    exact i3 i (by omega)
  refine ⟨hlen, hpos, ?_⟩
  unfold addi_pciserial_suspend_ports
  congr 1
  rw [suspend_loop_filter p.line p.nr 0, List.range_eq_range']
  congr 1
  apply List.filter_eq_self.mpr
  intro a ha
  obtain ⟨ha1, ha2⟩ := List.mem_range'_1.mp ha
  exact decide_eq_true (hpos a (by omega))

/-- Claim C7: suspend and resume touch exactly the attached indices
`[0, nr)` in attachment order; suspend runs the `exit` hook (when
present) after all port suspensions; resume first re-runs the `init`
hook (when present) and then resumes the ports regardless of the hook's
result. -/
theorem claim7_suspend_resume (p : SerialPrivate) :
    addi_pciserial_suspend_ports p =
      ((List.range p.nr).filter (fun i => decide (0 ≤ p.line.getD i (-1)))).map
        (fun i => AttachEvent.suspended (p.line.getD i (-1))) ++
        (if p.quirk.hasExit then [AttachEvent.exitCalled] else []) ∧
    addi_pciserial_resume_ports p =
      (match p.quirk.init with
       | some f => [AttachEvent.initCalled (f p.dev)]
       | none => []) ++
        ((List.range p.nr).filter (fun i => decide (0 ≤ p.line.getD i (-1)))).map
          (fun i => AttachEvent.resumed (p.line.getD i (-1))) ∧
    (∀ f, p.quirk.init = some f →
      addi_pciserial_resume_ports p =
        AttachEvent.initCalled (f p.dev) ::
          ((List.range p.nr).filter (fun i => decide (0 ≤ p.line.getD i (-1)))).map
            (fun i => AttachEvent.resumed (p.line.getD i (-1)))) := by
  have hs : addi_pciserial_suspend_ports p =
      ((List.range p.nr).filter (fun i => decide (0 ≤ p.line.getD i (-1)))).map
        (fun i => AttachEvent.suspended (p.line.getD i (-1))) ++
        (if p.quirk.hasExit then [AttachEvent.exitCalled] else []) := by
    unfold addi_pciserial_suspend_ports
    rw [suspend_loop_filter p.line p.nr 0, List.range_eq_range']
  have hr : addi_pciserial_resume_ports p =
      (match p.quirk.init with
       | some f => [AttachEvent.initCalled (f p.dev)]
       | none => []) ++
        ((List.range p.nr).filter (fun i => decide (0 ≤ p.line.getD i (-1)))).map
          (fun i => AttachEvent.resumed (p.line.getD i (-1))) := by
    unfold addi_pciserial_resume_ports
    rw [resume_loop_filter p.line p.nr 0, List.range_eq_range']
  refine ⟨hs, hr, ?_⟩
  intro f hf
  rw [hr, hf]
  rfl

/-- Claim C8: post-fault resume rebuilds the session from the original
session's board descriptor; a successful rebuild is swapped in (same
board, hence the same nominal port count), a failed rebuild leaves the
old driver data in place with no retry, and an absent session does
nothing. -/
theorem claim8_fault_rebuild (env : AttachEnv) (dev : PciDev) (priv : SerialPrivate) :
    (∀ p2 evs, addi_pciserial_init_ports env dev priv.board = (Except.ok p2, evs) →
      serial8250_io_resume env dev (some priv) = (some p2, evs) ∧
      p2.board = priv.board ∧ p2.board.num_ports = priv.board.num_ports) ∧
    (∀ e evs, addi_pciserial_init_ports env dev priv.board = (Except.error e, evs) →
      serial8250_io_resume env dev (some priv) = (some priv, evs)) ∧
    serial8250_io_resume env dev none = (none, []) := by
  refine ⟨?_, ?_, rfl⟩
  · intro p2 evs h
    have hb := (init_ports_core_ok (find_quirk_total dev) env dev priv.board p2 evs h).2.1
    refine ⟨?_, hb, by rw [hb]⟩
    unfold serial8250_io_resume
    dsimp only
    rw [h]
  · intro e evs h
    unfold serial8250_io_resume
    dsimp only
    rw [h]

def claim7_q : PciSerialQuirk :=
  { default_quirk with init := some (fun _ => -7), hasExit := true }

def claim7_dev : PciDev :=
  { vendor := 0x9999, device := 0xaaaa, subsystem_vendor := 1, subsystem_device := 2,
    devClass := 0x070000, irq := 12,
    resources := fun _ => { memRegion := false, portRegion := false, start := 0, len := 0 },
    iomapOk := fun _ => true, iomapTable := none }

def claim7_priv : SerialPrivate :=
  { dev := claim7_dev, nr := 2, quirk := claim7_q,
    board := mkBoard FL_BASE0 2 115200 8 0 0, line := [3, 4] }

/-- Witness for C7: a two-port session suspends handles 3 then 4 and then
runs `exit`; resume re-runs the (failing) `init` and still resumes both
handles in order. -/
theorem claim7_witness :
    addi_pciserial_suspend_ports claim7_priv =
      [AttachEvent.suspended 3, AttachEvent.suspended 4, AttachEvent.exitCalled] ∧
    addi_pciserial_resume_ports claim7_priv =
      [AttachEvent.initCalled (-7), AttachEvent.resumed 3, AttachEvent.resumed 4] := by
  have h := claim7_suspend_resume claim7_priv
  constructor
  · rw [h.1]
    decide
  · rw [h.2.2 (fun _ => -7) rfl]
    decide

def claim8_dev : PciDev :=
  { vendor := 0xbbbb, device := 0xcccc, subsystem_vendor := 1, subsystem_device := 2,
    devClass := 0x070000, irq := 4,
    resources := fun b =>
      if b = 0 then { memRegion := false, portRegion := true, start := 0x3f8, len := 8 }
      else { memRegion := false, portRegion := false, start := 0, len := 0 },
    iomapOk := fun _ => true, iomapTable := none }

def claim8_board : PciserialBoard := mkBoard FL_BASE0 1 115200 8 0 0

def claim8_env : AttachEnv := { allocOk := true, register := fun _ => 7 }

def claim8_old : SerialPrivate :=
  { dev := claim8_dev, nr := 1, quirk := default_quirk, board := claim8_board, line := [9] }

def claim8_new : SerialPrivate :=
  { dev := claim8_dev, nr := 1, quirk := default_quirk, board := claim8_board, line := [7] }

/-- Witness for C8: a fault-resume over an old one-port session rebuilds
a fresh session from the same board descriptor (new handle 7), swaps it
in, and keeps the nominal port count. -/
theorem claim8_witness :
    serial8250_io_resume claim8_env claim8_dev (some claim8_old) =
      (some claim8_new,
        [AttachEvent.setupCalled 0, AttachEvent.registered 0 7]) ∧
    claim8_new.board.num_ports = claim8_old.board.num_ports := by
  have h : addi_pciserial_init_ports claim8_env claim8_dev claim8_old.board =
      (Except.ok claim8_new, [AttachEvent.setupCalled 0, AttachEvent.registered 0 7]) := rfl
  obtain ⟨h1, h2, h3⟩ := (claim8_fault_rebuild claim8_env claim8_dev claim8_old).1
    claim8_new [AttachEvent.setupCalled 0, AttachEvent.registered 0 7] h
  exact ⟨h1, h3⟩

def claim9_dev : PciDev :=
  { vendor := 0xdddd, device := 0xeeee, subsystem_vendor := 1, subsystem_device := 2,
    devClass := 0x070000, irq := 4,
    resources := fun b =>
      if b = 0 then { memRegion := false, portRegion := true, start := 0x220, len := 32 }
      else { memRegion := false, portRegion := false, start := 0, len := 0 },
    iomapOk := fun _ => true, iomapTable := none }

def claim9_board : PciserialBoard := mkBoard FL_BASE0 2 115200 8 0 0

def claim9_env : AttachEnv := { allocOk := true, register := fun i => (i : Int) }

def claim9_priv : SerialPrivate :=
  { dev := claim9_dev, nr := 2, quirk := default_quirk, board := claim9_board,
    line := [0, 1] }

/-- Witness for C9: the session committed by a concrete two-port attach
has nonnegative handles below its attached count and suspends every
attached index. -/
theorem claim9_witness :
    claim9_priv.nr ≤ claim9_priv.line.length ∧
    (∀ i, i < claim9_priv.nr → 0 ≤ claim9_priv.line.getD i (-1)) ∧
    addi_pciserial_suspend_ports claim9_priv =
      (List.range claim9_priv.nr).map
        (fun i => AttachEvent.suspended (claim9_priv.line.getD i (-1))) ++
        (if claim9_priv.quirk.hasExit then [AttachEvent.exitCalled] else []) :=
  claim9_committed_lines default_quirk claim9_env claim9_dev claim9_board claim9_priv
    [AttachEvent.setupCalled 0, AttachEvent.registered 0 0,
     AttachEvent.setupCalled 1, AttachEvent.registered 1 1] rfl
